import Mathlib

set_option linter.all false

/-!
Shallow embedding of the eg-error-handling UDP message pipeline:
`src/main.cpp`, `src/acme/socket.h`, `src/acme/socket.cpp` and
`src/acme/common.h`, together with theorems settling the specification
claims about it.

Modelling conventions: bytes are `Nat` values `< 256`; C++ machine
integers are `Int`/`Nat` with explicit wrap-around where it matters;
`std::optional` is `Option`; an `ACME_ASSERT` whose condition fails (in
the source, `__builtin_unreachable()`) is the distinguished
non-recoverable outcome `Outcome.contractViolation`; diagnostics written
through the `acme` logging helpers are collected into lists of `diag`
values; OS behaviour (`::socket`, `::bind`, `::read`, `::close`) enters
as explicit oracle parameters.
-/

/-- Outcome of running code containing `ACME_ASSERT` contract checks:
either a normal result, or a non-recoverable contract violation. -/
inductive Outcome (α : Type) where
  | ok (val : α)
  | contractViolation
deriving DecidableEq, Repr

/-- One diagnostic line written to the error stream by the `acme::log`
helpers, identified by its call site together with the formatted-in
values. -/
inductive diag where
  | errorArgCount (expected actual : Nat)
  | errorParsePort (arg : List Char)
  | errorCreateSocket
  | errorBindSocket (port : Nat)
  | warnPacketSize (expected : Nat) (actual : Int)
  | warnPacketContents (value : Int)
  | errorReadFailed
  | infoEnteringMainLoop
deriving DecidableEq, Repr

/-- The tag the logging helper prints before the line:
`acme::info`, `acme::warn` or `acme::error`. -/
def diag.tag : diag → String
  | .warnPacketSize _ _ => "warning"
  | .warnPacketContents _ => "warning"
  | .infoEnteringMainLoop => "info"
  | .errorArgCount _ _ => "error"
  | .errorParsePort _ => "error"
  | .errorCreateSocket => "error"
  | .errorBindSocket _ => "error"
  | .errorReadFailed => "error"

/-- Reads one byte (a `Nat`, reduced mod 256) as a C++ `std::int8_t`
value, two's complement. -/
def toInt8 (b : Nat) : Int :=
  if b % 256 < 128 then ((b % 256 : Nat) : Int) else ((b % 256 : Nat) : Int) - 256

/-- `size_t` modulus: `args.size() - 1` in `parse_command_line` is
computed in `size_t`, wrapping to `2^64 - 1` when the span is empty. -/
def SIZE_T_MOD : Nat := 2 ^ 64

/-- Accumulator form of the value `std::from_chars` builds from a run of
decimal digits. -/
def digitsToNat : List Char → Nat → Nat
  | [], acc => acc
  | c :: cs, acc => digitsToNat cs (acc * 10 + (c.toNat - 48))

/-- `std::from_chars(first, last, v)` for `v : in_port_t` (`uint16_t`),
combined with the caller's whole-string success check
`ec == errc() && p == last`: succeeds iff the argument is non-empty,
every character is a decimal digit, and the value fits in 16 bits. -/
def from_chars_u16 (s : List Char) : Option Nat :=
  if s = [] then none
  else if s.all Char.isDigit then
    if digitsToNat s 0 ≤ 65535 then some (digitsToNat s 0) else none
  else none

/-- configuration information passed to the program at startup
(main.cpp `struct config`): a validated 16-bit port number. -/
structure config where
  port_number : Nat
deriving DecidableEq, Repr

/-- parses command line and returns valid program configuration
(main.cpp `parse_command_line`), paired with the diagnostics emitted.
The source computes `args.size() - 1` in `size_t`, which wraps to
`2^64 - 1` exactly when the span is empty; that wrap is written here as
the explicit zero case. -/
def parse_command_line (args : List (List Char)) : Option config × List diag :=
  let expected_size : Nat := 1
  let actual_size : Nat := if args.length = 0 then SIZE_T_MOD - 1 else args.length - 1
  if actual_size ≠ expected_size then
    (none, [diag.errorArgCount expected_size actual_size])
  else
    let port_string := args.getD 1 []
    match from_chars_u16 port_string with
    | none => (none, [diag.errorParsePort port_string])
    | some p => (some ⟨p⟩, [])

/-- the trivial type local to `parse_message` that carries the network
data: a single `std::int8_t` field. -/
structure payload where
  number : Int
deriving DecidableEq, Repr

/-- `sizeof(payload)`: one byte, the wire width of one payload record. -/
def payload_size : Nat := 1

/-- `deserialize<payload>` (main.cpp): returns the raw bytes as a payload
iff the byte count equals `sizeof(payload)`; otherwise emits one warning
and yields nothing. -/
def deserialize (bytes : List Nat) : Option payload × List diag :=
  let destination_size := payload_size
  let packet_size : Int := bytes.length
  if packet_size ≠ (destination_size : Int) then
    (none, [diag.warnPacketSize destination_size packet_size])
  else
    (some ⟨toInt8 (bytes.getD 0 0)⟩, [])

/-- `enum class animal`: a scoped enumeration over `int`. The carrier is
the underlying integer, since a C++ scoped enum may hold any value of its
underlying type until validated. -/
abbrev animal := Int

def animal.chicken : animal := 0

def animal.cow : animal := 1

def animal.horse : animal := 2

def animal.zebra : animal := 3

/-- network message passed to the program at run time
(main.cpp `struct message`). -/
structure message where
  a : animal
deriving DecidableEq, Repr

/-- converts raw network packet to message (main.cpp `parse_message`):
deserializes, then validates the discriminant against the four legal
animals; an illegal discriminant is warned about and rejected. -/
def parse_message (network_packet : List Nat) : Option message × List diag :=
  match deserialize network_packet with
  | (none, ds) => (none, ds)
  | (some p, ds) =>
    let a : animal := p.number
    if a = animal.zebra ∨ a = animal.chicken ∨ a = animal.cow ∨ a = animal.horse then
      (some ⟨a⟩, ds)
    else
      (none, ds ++ [diag.warnPacketContents a])

/-- the display-name table in `process_message`. -/
def animals : List String := ["chicken", "cow", "horse", "zebra"]

/-- responds to a message (main.cpp `process_message`): asserts that the
variant is one of the four legal animals, then prints its name on
standard output; the returned value is the stdout line. Indexing the
four-element table out of bounds would likewise be undefined behaviour,
hence a contract violation. -/
def process_message (m : message) : Outcome String :=
  if m.a = animal.chicken ∨ m.a = animal.cow ∨ m.a = animal.horse ∨ m.a = animal.zebra then
    match animals.get? m.a.toNat with
    | some name => .ok name
    | none => .contractViolation
  else
    .contractViolation

/-- the sentinel file descriptor (socket.h `socket::uninitialized`). -/
def uninitialized : Int := -1

/-- `acme::socket`: owns one OS socket handle. -/
structure socket where
  fd : Int
deriving DecidableEq, Repr

/-- true iff the socket is created (socket.cpp `socket::open`). -/
def socket.isOpen (s : socket) : Bool := s.fd ≠ uninitialized

/-- move assignment `socket::operator=(socket&&)`:
`std::swap(fd, other.fd)`. Returns (assigned-to socket, moved-from
socket). -/
def socket.moveAssign (tgt src : socket) : socket × socket :=
  (⟨src.fd⟩, ⟨tgt.fd⟩)

/-- move construction `socket(socket&&)`: the fresh object's `fd` starts
at the `uninitialized` member initialiser and is swapped with
`other.fd`. Returns (constructed socket, moved-from socket). -/
def socket.moveConstruct (src : socket) : socket × socket :=
  socket.moveAssign ⟨uninitialized⟩ src

/-- what the destructor `socket::~socket` does to the OS handle. -/
inductive destructEffect where
  | noRelease
  | release (fd : Int)
  | contractViolation
deriving DecidableEq, Repr

/-- destructor `socket::~socket`: a no-op when not open; otherwise
asserts there is no outstanding `errno`, calls `::close` and asserts the
close succeeded. `closeResult` is the value `::close` returns. -/
def socket.destruct (s : socket) (errno : Int) (closeResult : Int) : destructEffect :=
  if s.isOpen = false then .noRelease
  else if errno ≠ 0 then .contractViolation
  else if closeResult ≠ 0 then .contractViolation
  else .release s.fd

/-- result of `socket::read`: the subrange handed back to the caller and
the `errno` state left for the caller to inspect. -/
structure readResult where
  filled : Option (List Nat)
  errnoAfter : Int
deriving DecidableEq, Repr

/-- receives a network packet (socket.cpp `socket::read`). `dataNonNull`
models `buffer.data() != nullptr`; `transport` is the behaviour of the
underlying `::read` call (`none` = it returns -1, `some d` = the next
queued datagram, truncated to the buffer by the transport); `osErrno` is
the errno value a failing `::read` sets. -/
def socket.read (s : socket) (buffer : List Nat) (dataNonNull : Bool)
    (errnoBefore : Int) (transport : Option (List Nat)) (osErrno : Int) :
    Outcome readResult :=
  if dataNonNull = false then .contractViolation
  else if s.isOpen = false then .contractViolation
  else if errnoBefore ≠ 0 then .contractViolation
  else
    let size : Int :=
      match transport with
      | none => -1
      | some datagram => min datagram.length buffer.length
    if ¬ (size = -1 ∨ (0 ≤ size ∧ size ≤ (buffer.length : Int))) then .contractViolation
    else if size = -1 then .ok ⟨none, osErrno⟩
    else .ok ⟨some ((transport.getD []).take size.toNat), errnoBefore⟩

/-- creates a UDP socket (main.cpp `create_socket`): `osFd` is the value
the `::socket` call returns (-1 on failure), `bindOk` whether `::bind`
succeeds. -/
def create_socket (cfg : config) (osFd : Int) (bindOk : Bool) :
    Option socket × List diag :=
  let udp_socket : socket := ⟨osFd⟩
  if udp_socket.isOpen = false then (none, [diag.errorCreateSocket])
  else if bindOk = false then (none, [diag.errorBindSocket cfg.port_number])
  else (some udp_socket, [])

/-- `max_buffer_size` in main.cpp `run`. -/
def max_buffer_size : Nat := 2

/-- the zero-initialised read buffer `run` rebuilds every iteration:
`std::array<std::byte, max_buffer_size> buffer{}`. -/
def runBuffer : List Nat := List.replicate max_buffer_size 0

/-- what `udp_socket.read(buffer)` yields inside `run`, as a function of
the transport event (see `socket.read`): the filled front of the buffer,
or nothing on a transport error. -/
def readPacket (buffer : List Nat) (transport : Option (List Nat)) :
    Option (List Nat) :=
  match transport with
  | none => none
  | some datagram => some (datagram.take buffer.length)

/-- observable behaviour of a finite observation of the dispatch loop:
the diagnostics emitted, the stdout lines printed, and whether the
process terminated abnormally via `std::terminate`. -/
structure runTrace where
  diags : List diag
  stdoutLines : List String
  fatal : Bool
deriving DecidableEq, Repr

/-- one iteration of the `while (true)` dispatch loop in main.cpp `run`,
given this iteration's transport event and the observation of the rest
of the run: a failed read logs one error and terminates via
`std::terminate` (the rest of the run never happens); a rejected packet
contributes its warnings and continues; a valid message is handed to
`process_message` and continues. -/
def runStep (t : Option (List Nat)) (later : Outcome runTrace) : Outcome runTrace :=
  match readPacket runBuffer t with
  | none => .ok ⟨[diag.errorReadFailed], [], true⟩
  | some packet =>
    match parse_message packet with
    | (none, ds) =>
      match later with
      | .ok r => .ok ⟨ds ++ r.diags, r.stdoutLines, r.fatal⟩
      | .contractViolation => .contractViolation
    | (some m, ds) =>
      match process_message m with
      | .contractViolation => .contractViolation
      | .ok line =>
        match later with
        | .ok r => .ok ⟨ds ++ r.diags, line :: r.stdoutLines, r.fatal⟩
        | .contractViolation => .contractViolation

/-- the `while (true)` dispatch loop of main.cpp `run`, driven by one
transport event per iteration; exhausting the event list observes a loop
still awaiting the next datagram. -/
def runLoop : List (Option (List Nat)) → Outcome runTrace
  | [] => .ok ⟨[], [], false⟩
  | t :: rest => runStep t (runLoop rest)

/-- main.cpp `run`: logs "entering main loop" at info level, then enters
the dispatch loop. -/
def run (transports : List (Option (List Nat))) : Outcome runTrace :=
  match runLoop transports with
  | .ok r => .ok ⟨diag.infoEnteringMainLoop :: r.diags, r.stdoutLines, r.fatal⟩
  | .contractViolation => .contractViolation

/-- how far main.cpp `main` gets. -/
inductive procOutcome where
  | exitFailure
  | looping (cfg : config)
deriving DecidableEq, Repr

/-- observable behaviour of main.cpp `main` up to the point where `run`
is entered: outcome, diagnostics, and whether any socket work (the
`create_socket` call) was performed. -/
structure mainTrace where
  outcome : procOutcome
  diags : List diag
  socketWorkDone : Bool
deriving DecidableEq, Repr

/-- main.cpp `main`: parse the command line, then create and bind the
socket, then hand over to `run`. -/
def main_model (args : List (List Char)) (osFd : Int) (bindOk : Bool) : mainTrace :=
  match parse_command_line args with
  | (none, ds) => ⟨.exitFailure, ds, false⟩
  | (some cfg, ds) =>
    match create_socket cfg osFd bindOk with
    | (none, ds2) => ⟨.exitFailure, ds ++ ds2, true⟩
    | (some _, ds2) => ⟨.looping cfg, ds ++ ds2, true⟩

/-- the decimal digit character for a value below ten. -/
def digitChar (n : Nat) : Char := Char.ofNat (48 + n)

/-- fuel-driven helper for `decimalDigits`; with fuel above the number
the recursion always bottoms out in the base cases. -/
def decimalDigitsAux : Nat → Nat → List Char
  | 0, _ => []
  | fuel + 1, n =>
    if n < 10 then [digitChar n]
    else decimalDigitsAux fuel (n / 10) ++ [digitChar (n % 10)]

/-- the canonical decimal string of a natural number, most significant
digit first (the spec's "decimal string of p"). -/
def decimalDigits (n : Nat) : List Char := decimalDigitsAux (n + 1) n

/-! ### Helper lemmas -/

lemma deserialize_eq_some {bytes : List Nat} {p : payload} {ds : List diag}
    (h : deserialize bytes = (some p, ds)) :
    bytes.length = 1 ∧ p.number = toInt8 (bytes.getD 0 0) ∧ ds = [] := by
  simp only [deserialize] at h
  split at h
  · exact absurd h (by simp)
  · rename_i hsize
    rw [not_ne_iff] at hsize
    have hlen : bytes.length = payload_size := by exact_mod_cast hsize
    obtain ⟨hp, hds⟩ := Prod.mk.injEq .. ▸ h
    refine ⟨by simpa [payload_size] using hlen, ?_, hds.symm⟩
    cases Option.some.inj hp
    rfl

lemma parse_message_eq_some {bytes : List Nat} {m : message} {ds : List diag}
    (h : parse_message bytes = (some m, ds)) :
    (m.a = animal.chicken ∨ m.a = animal.cow ∨ m.a = animal.horse ∨ m.a = animal.zebra)
      ∧ ds = [] := by
  unfold parse_message at h
  cases hde : deserialize bytes with
  | mk o ds2 =>
    rw [hde] at h
    cases o with
    | none => exact absurd h (by simp)
    | some p =>
      simp only [] at h
      split at h
      · rename_i hcond
        obtain ⟨hp, hds⟩ := Prod.mk.injEq .. ▸ h
        cases Option.some.inj hp
        have hds2 := (deserialize_eq_some hde).2.2
        subst hds2
        exact ⟨by tauto, hds.symm⟩
      · exact absurd h (by simp)

lemma process_message_legal {m : message}
    (h : m.a = animal.chicken ∨ m.a = animal.cow ∨ m.a = animal.horse ∨ m.a = animal.zebra) :
    (animals.get? m.a.toNat).isSome = true ∧
      process_message m = .ok (animals.getD m.a.toNat "") := by
  obtain ⟨a⟩ := m
  rcases h with h | h | h | h <;> · subst h; exact ⟨by decide, by decide⟩

lemma deserialize_eq_none {bytes : List Nat} {ds : List diag}
    (h : deserialize bytes = (none, ds)) :
    ds = [diag.warnPacketSize payload_size (bytes.length : Int)] ∧ bytes.length ≠ 1 := by
  simp only [deserialize] at h
  split at h
  · rename_i hsize
    obtain ⟨-, hds⟩ := Prod.mk.injEq .. ▸ h
    refine ⟨hds.symm, fun hlen => hsize ?_⟩
    simp [hlen, payload_size]
  · exact absurd h (by simp)

lemma parse_message_eq_none {bytes : List Nat} {ds : List diag}
    (h : parse_message bytes = (none, ds)) :
    ∃ d, ds = [d] ∧ d.tag = "warning" := by
  unfold parse_message at h
  cases hde : deserialize bytes with
  | mk o2 ds2 =>
    rw [hde] at h
    cases o2 with
    | none =>
      simp only [] at h
      obtain ⟨-, hds⟩ := Prod.mk.injEq .. ▸ h
      subst hds
      obtain ⟨hds2, -⟩ := deserialize_eq_none hde
      exact ⟨_, hds2, rfl⟩
    | some p =>
      simp only [] at h
      split at h
      · exact absurd h (by simp)
      · obtain ⟨-, hds⟩ := Prod.mk.injEq .. ▸ h
        subst hds
        obtain ⟨-, -, hds2⟩ := deserialize_eq_some hde
        subst hds2
        exact ⟨_, rfl, rfl⟩

lemma runStep_fatal (later : Outcome runTrace) :
    runStep none later = .ok ⟨[diag.errorReadFailed], [], true⟩ := rfl

lemma runStep_some_ok (d : List Nat) :
    ∃ ds out, (∀ x ∈ ds, x.tag = "warning") ∧
      ∀ r : runTrace,
        runStep (some d) (.ok r) = .ok ⟨ds ++ r.diags, out ++ r.stdoutLines, r.fatal⟩ := by
  cases hp : parse_message (d.take runBuffer.length) with
  | mk o ds =>
    cases o with
    | none =>
      obtain ⟨w, hw, hwt⟩ := parse_message_eq_none hp
      refine ⟨ds, [], ?_, fun r => ?_⟩
      · intro x hx
        subst hw
        simp at hx
        subst hx
        exact hwt
      · simp only [runStep, readPacket, hp]
        simp
    | some m =>
      obtain ⟨hleg, hds⟩ := parse_message_eq_some hp
      subst hds
      refine ⟨[], [animals.getD m.a.toNat ""], by simp, fun r => ?_⟩
      simp only [runStep, readPacket, hp, (process_message_legal hleg).2]
      simp

lemma runLoop_never_traps : ∀ transports, ∃ r, runLoop transports = .ok r := by
  intro transports
  induction transports with
  | nil => exact ⟨_, rfl⟩
  | cons t rest ih =>
    obtain ⟨r, hr⟩ := ih
    cases t with
    | none => exact ⟨_, rfl⟩
    | some d =>
      obtain ⟨ds, out, -, hstep⟩ := runStep_some_ok d
      exact ⟨⟨ds ++ r.diags, out ++ r.stdoutLines, r.fatal⟩,
        by simp only [runLoop, hr, hstep]⟩

lemma digitChar_isDigit {n : Nat} (h : n < 10) : (digitChar n).isDigit = true := by
  interval_cases n <;> decide

lemma digitChar_toNat {n : Nat} (h : n < 10) : (digitChar n).toNat = 48 + n := by
  interval_cases n <;> decide

lemma digitsToNat_append (xs ys : List Char) :
    ∀ acc, digitsToNat (xs ++ ys) acc = digitsToNat ys (digitsToNat xs acc) := by
  induction xs with
  | nil => intro acc; rfl
  | cons c cs ih =>
    intro acc
    simp only [List.cons_append, digitsToNat]
    exact ih _

lemma decimalDigitsAux_spec : ∀ fuel n, n < fuel →
    decimalDigitsAux fuel n ≠ [] ∧
    (decimalDigitsAux fuel n).all Char.isDigit = true ∧
    digitsToNat (decimalDigitsAux fuel n) 0 = n := by
  intro fuel
  induction fuel with
  | zero => intro n h; exact absurd h (Nat.not_lt_zero n)
  | succ fuel ih =>
    intro n hn
    by_cases h10 : n < 10
    · simp only [decimalDigitsAux, if_pos h10]
      refine ⟨by simp, by simp [digitChar_isDigit h10], ?_⟩
      simp only [digitsToNat]
      rw [digitChar_toNat h10]
      omega
    · have hdiv : n / 10 < fuel := by omega
      obtain ⟨hne, hall, hval⟩ := ih (n / 10) hdiv
      simp only [decimalDigitsAux, if_neg h10]
      refine ⟨by simp, ?_, ?_⟩
      · rw [List.all_append]
        simp [hall, digitChar_isDigit (Nat.mod_lt n (by norm_num))]
      · rw [digitsToNat_append, hval]
        simp only [digitsToNat]
        rw [digitChar_toNat (Nat.mod_lt n (by norm_num))]
        omega

lemma from_chars_decimal {p : Nat} (hp : p ≤ 65535) :
    from_chars_u16 (decimalDigits p) = some p := by
  obtain ⟨hne, hall, hval⟩ := decimalDigitsAux_spec (p + 1) p (Nat.lt_succ_self p)
  simp only [from_chars_u16, decimalDigits]
  rw [if_neg hne, if_pos hall, hval, if_pos hp]

lemma from_chars_u16_bad {s : List Char}
    (h : s = [] ∨ s.all Char.isDigit = false) : from_chars_u16 s = none := by
  rcases h with h | h
  · simp [from_chars_u16, h]
  · by_cases he : s = []
    · simp [from_chars_u16, he]
    · simp [from_chars_u16, he, h]

lemma parse_command_line_count {args : List (List Char)} (h : args.length ≠ 2) :
    parse_command_line args =
      (none, [diag.errorArgCount 1
        (if args.length = 0 then SIZE_T_MOD - 1 else args.length - 1)]) := by
  simp only [parse_command_line]
  rw [if_pos]
  by_cases h0 : args.length = 0
  · rw [if_pos h0]
    norm_num [SIZE_T_MOD]
  · rw [if_neg h0]
    omega

lemma parse_command_line_len2 {args : List (List Char)} (h : args.length = 2) :
    parse_command_line args =
      (match from_chars_u16 (args.getD 1 []) with
       | none => (none, [diag.errorParsePort (args.getD 1 [])])
       | some p => (some ⟨p⟩, [])) := by
  have hact : (if args.length = 0 then SIZE_T_MOD - 1 else args.length - 1) = 1 := by
    rw [if_neg (by omega)]
    omega
  simp only [parse_command_line, hact]
  rw [if_neg (by norm_num)]

lemma parse_command_line_good {p : Nat} (hp : p ≤ 65535) (prog : List Char) :
    parse_command_line [prog, decimalDigits p] = (some ⟨p⟩, []) := by
  rw [parse_command_line_len2 (by rfl)]
  have hgd : ([prog, decimalDigits p] : List (List Char)).getD 1 [] = decimalDigits p := rfl
  rw [hgd, from_chars_decimal hp]

lemma main_model_parse_fail {args : List (List Char)} {ds : List diag}
    (osFd : Int) (bindOk : Bool) (hm : parse_command_line args = (none, ds)) :
    main_model args osFd bindOk = ⟨.exitFailure, ds, false⟩ := by
  unfold main_model
  rw [hm]

lemma deserialize_single (v : Nat) : deserialize [v] = (some ⟨toInt8 v⟩, []) := by
  simp [deserialize, payload_size]

lemma parse_message_invalid_byte {v : Nat} (hv : v < 256)
    (hn : ¬(v = 0 ∨ v = 1 ∨ v = 2 ∨ v = 3)) :
    parse_message [v] = (none, [diag.warnPacketContents (toInt8 v)]) := by
  have hcond : ¬(toInt8 v = animal.zebra ∨ toInt8 v = animal.chicken ∨
      toInt8 v = animal.cow ∨ toInt8 v = animal.horse) := by
    simp only [toInt8, animal.zebra, animal.chicken, animal.cow, animal.horse]
    split <;> omega
  simp only [parse_message, deserialize_single]
  rw [if_neg hcond]
  simp

/-! ### Claim theorems -/

/-- C4: for every byte sequence whose length is not exactly 1, the
deserializer produces no value and reports the wrong-size condition with
expected length 1 (`sizeof(payload)`) and the actual length. -/
theorem C4_wrong_size (bytes : List Nat) (h : bytes.length ≠ 1) :
    deserialize bytes = (none, [diag.warnPacketSize payload_size (bytes.length : Int)]) := by
  have h' : (bytes.length : Int) ≠ ((payload_size : Nat) : Int) := by
    simp only [payload_size]
    exact_mod_cast h
  simp only [deserialize]
  rw [if_pos h']

/-- Witness for C4 at the concrete 2-byte input `[4, 4]`. -/
theorem C4_wrong_size_witness :
    deserialize [4, 4] =
      (none, [diag.warnPacketSize payload_size (([4, 4] : List Nat).length : Int)]) :=
  C4_wrong_size [4, 4] (by decide)

/-- C10: every message the validator `parse_message` produces has a
variant among the four animals, so inside `process_message` the internal
assertion holds, the index into the four-element name table is in
bounds, and the handler's failure branch is not taken. -/
theorem C10_validator_guarantees_handler (bytes : List Nat) (m : message) (ds : List diag)
    (h : parse_message bytes = (some m, ds)) :
    (m.a = animal.chicken ∨ m.a = animal.cow ∨ m.a = animal.horse ∨ m.a = animal.zebra) ∧
    (animals.get? m.a.toNat).isSome = true ∧
    process_message m = .ok (animals.getD m.a.toNat "") := by
  have hleg := (parse_message_eq_some h).1
  exact ⟨hleg, (process_message_legal hleg).1, (process_message_legal hleg).2⟩

/-- Witness for C10 at the concrete packet `[3]` (a zebra). -/
theorem C10_validator_witness :
    (((3 : Int) = animal.chicken ∨ (3 : Int) = animal.cow ∨
        (3 : Int) = animal.horse ∨ (3 : Int) = animal.zebra) ∧
      (animals.get? (message.mk 3).a.toNat).isSome = true ∧
      process_message ⟨3⟩ = .ok (animals.getD (message.mk 3).a.toNat "")) :=
  C10_validator_guarantees_handler [3] ⟨3⟩ [] (by decide)

/-- C2 counterexample: the read buffer `run` builds every iteration has
capacity `max_buffer_size = 2`, not the 1-byte wire width
`sizeof(payload)` the claim states. -/
theorem C2_counterexample : runBuffer.length ≠ payload_size := by decide

/-- C2 amended: the per-iteration read buffer has fixed capacity 2,
one byte more than the 1-byte wire width of a payload record, so a
2-byte datagram is read in full and rejected as wrong-size (expected 1,
actual 2) rather than truncated into a valid-looking record. -/
theorem C2_amended_buffer :
    runBuffer.length = payload_size + 1 ∧
    runLoop [some [7, 7]] = .ok ⟨[diag.warnPacketSize payload_size 2], [], false⟩ := by
  decide

/-- C3 counterexample: move-assigning from a socket into an open target
(`fd = 5`) leaves the moved-from socket holding the target's old handle:
it reports `isOpen = true` and its destruction performs an OS release. -/
theorem C3_counterexample :
    ((socket.moveAssign ⟨5⟩ ⟨7⟩).2.isOpen = true) ∧
    (socket.moveAssign ⟨5⟩ ⟨7⟩).2.destruct 0 0 = .release 5 := by decide

/-- C3 amended: after move construction the moved-from socket holds the
uninitialized sentinel, reports `isOpen = false`, and its destruction
performs no OS release; move assignment swaps handles, so the moved-from
socket holds the handle the target previously held and is uninitialized
(no release on destruction) exactly when the target was not open. -/
theorem C3_amended_move :
    (∀ src : socket,
      (socket.moveConstruct src).2 = ⟨uninitialized⟩ ∧
      (socket.moveConstruct src).2.isOpen = false ∧
      ∀ errno closeResult, (socket.moveConstruct src).2.destruct errno closeResult = .noRelease) ∧
    (∀ tgt src : socket,
      (socket.moveAssign tgt src).2.fd = tgt.fd ∧
      (socket.moveAssign tgt src).2.isOpen = tgt.isOpen ∧
      (tgt.isOpen = false →
        ∀ errno closeResult,
          (socket.moveAssign tgt src).2.destruct errno closeResult = .noRelease)) := by
  constructor
  · intro src
    exact ⟨rfl, rfl, fun errno closeResult => rfl⟩
  · intro tgt src
    refine ⟨rfl, rfl, fun h errno closeResult => ?_⟩
    have h2 : (socket.moveAssign tgt src).2.isOpen = false := h
    simp [socket.destruct, h2]

/-- Witness for C3's amended theorem at concrete sockets. -/
theorem C3_amended_witness :
    (socket.moveConstruct ⟨7⟩).2.isOpen = false ∧
    (socket.moveAssign ⟨-1⟩ ⟨7⟩).2.destruct 2 0 = .noRelease :=
  ⟨(C3_amended_move.1 ⟨7⟩).2.1, (C3_amended_move.2 ⟨-1⟩ ⟨7⟩).2.2 (by decide) 2 0⟩

set_option maxHeartbeats 2000000 in
set_option synthInstance.maxSize 2000 in
set_option synthInstance.maxHeartbeats 800000 in
set_option maxRecDepth 10000 in
/-- C1: for every 1-byte datagram with byte value `v`: if `v` is one of
0,1,2,3 the deserialize-then-validate pipeline yields a message whose
variant equals `v` and the action handler prints the corresponding name
("chicken", "cow", "horse", "zebra") on standard output; otherwise the
pipeline yields no message and exactly one warning diagnostic carrying
the raw discriminant value is emitted. -/
theorem C1_single_byte_pipeline :
    ∀ v : Nat, v < 256 →
      ((v = 0 ∨ v = 1 ∨ v = 2 ∨ v = 3) →
        parse_message [v] = (some ⟨(v : Int)⟩, []) ∧
        process_message ⟨(v : Int)⟩ = .ok (animals.getD v "") ∧
        runLoop [some [v]] = .ok ⟨[], [animals.getD v ""], false⟩ ∧
        (v = 0 → animals.getD v "" = "chicken") ∧
        (v = 1 → animals.getD v "" = "cow") ∧
        (v = 2 → animals.getD v "" = "horse") ∧
        (v = 3 → animals.getD v "" = "zebra")) ∧
      (¬(v = 0 ∨ v = 1 ∨ v = 2 ∨ v = 3) →
        (parse_message [v]).1 = none ∧
        (parse_message [v]).2 = [diag.warnPacketContents (toInt8 v)] ∧
        runLoop [some [v]] = .ok ⟨[diag.warnPacketContents (toInt8 v)], [], false⟩) := by
  decide

/-- Witness for C1 at the concrete bytes 2 (legal: horse) and 127
(illegal: one warning carrying the raw value). -/
theorem C1_pipeline_witness :
    (parse_message [2] = (some ⟨(2 : Int)⟩, []) ∧
      process_message ⟨(2 : Int)⟩ = .ok (animals.getD 2 "") ∧
      runLoop [some [2]] = .ok ⟨[], [animals.getD 2 ""], false⟩ ∧
      ((2 : Nat) = 0 → animals.getD 2 "" = "chicken") ∧
      ((2 : Nat) = 1 → animals.getD 2 "" = "cow") ∧
      ((2 : Nat) = 2 → animals.getD 2 "" = "horse") ∧
      ((2 : Nat) = 3 → animals.getD 2 "" = "zebra")) ∧
    ((parse_message [127]).1 = none ∧
      (parse_message [127]).2 = [diag.warnPacketContents (toInt8 127)] ∧
      runLoop [some [127]] = .ok ⟨[diag.warnPacketContents (toInt8 127)], [], false⟩) :=
  ⟨(C1_single_byte_pipeline 2 (by decide)).1 (by decide),
   (C1_single_byte_pipeline 127 (by decide)).2 (by decide)⟩

/-- C6: calling `socket::read` on an open socket with a valid buffer and
no outstanding errno never violates a contract check; on a transport
error it returns none and leaves the errno the OS set inspectable by the
caller; on success it returns the filled front of the buffer, whose
length is between 0 and the buffer's capacity inclusive. -/
theorem C6_socket_read (s : socket) (buffer : List Nat) (osErrno : Int)
    (hopen : s.isOpen = true) :
    (socket.read s buffer true 0 none osErrno = .ok ⟨none, osErrno⟩) ∧
    (∀ d : List Nat,
      socket.read s buffer true 0 (some d) osErrno =
        .ok ⟨some (d.take buffer.length), 0⟩ ∧
      (d.take buffer.length).length ≤ buffer.length) := by
  constructor
  · simp [socket.read, hopen]
  · intro d
    constructor
    · have hsz : ((min d.length buffer.length : Nat) : Int).toNat = min d.length buffer.length := by
        omega
      have htake : d.take (min d.length buffer.length) = d.take buffer.length := by
        rcases Nat.le_total d.length buffer.length with hle | hle
        · rw [Nat.min_eq_left hle, List.take_of_length_le hle,
            List.take_of_length_le (Nat.le_refl _)]
        · rw [Nat.min_eq_right hle]
      simp only [socket.read, hopen]
      simp only [Bool.true_eq_false, if_false, ne_eq, not_true_eq_false, ite_false,
        Nat.cast_min]
      rw [if_neg, if_neg]
      · simp only [Option.getD_some]
        rw [show ((min (d.length : Int) (buffer.length : Int)).toNat) =
            min d.length buffer.length by omega]
        rw [htake]
      · omega
      · rw [not_not]
        right
        constructor <;> omega
    · simp [List.length_take]

/-- Witness for C6 at a concrete open socket, buffer and datagram. -/
theorem C6_socket_read_witness :
    (socket.read ⟨5⟩ [0, 0] true 0 none 9 = .ok ⟨none, 9⟩) ∧
    (socket.read ⟨5⟩ [0, 0] true 0 (some [9, 8, 7]) 9 =
        .ok ⟨some ([9, 8, 7].take ([0, 0] : List Nat).length), 0⟩ ∧
      (([9, 8, 7] : List Nat).take ([0, 0] : List Nat).length).length ≤
        ([0, 0] : List Nat).length) :=
  ⟨(C6_socket_read ⟨5⟩ [0, 0] 9 (by decide)).1,
   (C6_socket_read ⟨5⟩ [0, 0] 9 (by decide)).2 [9, 8, 7]⟩

/-- C5: for every port p in [0, 65535], running the program with exactly
one argument equal to the decimal string of p parses to the
configuration with that port; for any other argument count, or an empty,
non-numeric, or trailing-garbage argument (any argument containing a
non-digit), command-line parsing yields no configuration and `main`
returns the failure status with no socket work performed. -/
theorem C5_command_line :
    (∀ p : Nat, p ≤ 65535 → ∀ prog : List Char,
      parse_command_line [prog, decimalDigits p] = (some ⟨p⟩, [])) ∧
    (∀ (args : List (List Char)) (osFd : Int) (bindOk : Bool),
      (args.length ≠ 2 ∨ args.getD 1 [] = [] ∨ (args.getD 1 []).all Char.isDigit = false) →
      (parse_command_line args).1 = none ∧
      (main_model args osFd bindOk).outcome = .exitFailure ∧
      (main_model args osFd bindOk).socketWorkDone = false) := by
  constructor
  · intro p hp prog
    exact parse_command_line_good hp prog
  · intro args osFd bindOk hbad
    have hpcl : (parse_command_line args).1 = none := by
      by_cases h2 : args.length = 2
      · have harg : args.getD 1 [] = [] ∨ (args.getD 1 []).all Char.isDigit = false := by
          rcases hbad with h | h | h
          · exact absurd h2 h
          · exact Or.inl h
          · exact Or.inr h
        rw [parse_command_line_len2 h2, from_chars_u16_bad harg]
      · rw [parse_command_line_count h2]
    cases hm : parse_command_line args with
    | mk o ds =>
      rw [hm] at hpcl
      cases o with
      | some cfg => exact absurd hpcl (by simp)
      | none =>
        rw [main_model_parse_fail osFd bindOk hm]
        exact ⟨rfl, rfl, rfl⟩

/-- Witness for C5 at port 8080 and at the empty argument vector. -/
theorem C5_command_line_witness :
    parse_command_line [['p'], decimalDigits 8080] = (some ⟨8080⟩, []) ∧
    ((parse_command_line []).1 = none ∧
      (main_model [] 3 true).outcome = .exitFailure ∧
      (main_model [] 3 true).socketWorkDone = false) :=
  ⟨C5_command_line.1 8080 (by norm_num) ['p'],
   C5_command_line.2 [] 3 true (Or.inl (by norm_num))⟩

/-- C7: every rejected or failed path emits exactly one diagnostic line:
wrong argument count and unparseable port are an "error" each from
`parse_command_line`; socket-creation and bind failures are an "error"
each from `create_socket`; a wrong-size datagram and an out-of-range
discriminant are one "warning" each from `deserialize`/`parse_message`;
a failed transport read is one "error" from the dispatch loop before it
terminates. -/
theorem C7_one_diagnostic_per_failure :
    (∀ args : List (List Char), args.length ≠ 2 →
      parse_command_line args =
        (none, [diag.errorArgCount 1
          (if args.length = 0 then SIZE_T_MOD - 1 else args.length - 1)]) ∧
      (diag.errorArgCount 1
        (if args.length = 0 then SIZE_T_MOD - 1 else args.length - 1)).tag = "error") ∧
    (∀ prog arg : List Char, from_chars_u16 arg = none →
      parse_command_line [prog, arg] = (none, [diag.errorParsePort arg]) ∧
      (diag.errorParsePort arg).tag = "error") ∧
    (∀ (cfg : config) (bindOk : Bool),
      create_socket cfg (-1) bindOk = (none, [diag.errorCreateSocket]) ∧
      diag.errorCreateSocket.tag = "error") ∧
    (∀ (cfg : config) (osFd : Int), osFd ≠ -1 →
      create_socket cfg osFd false = (none, [diag.errorBindSocket cfg.port_number]) ∧
      (diag.errorBindSocket cfg.port_number).tag = "error") ∧
    (∀ bytes : List Nat, bytes.length ≠ 1 →
      deserialize bytes = (none, [diag.warnPacketSize payload_size (bytes.length : Int)]) ∧
      (diag.warnPacketSize payload_size (bytes.length : Int)).tag = "warning") ∧
    (∀ v : Nat, v < 256 → ¬(v = 0 ∨ v = 1 ∨ v = 2 ∨ v = 3) →
      parse_message [v] = (none, [diag.warnPacketContents (toInt8 v)]) ∧
      (diag.warnPacketContents (toInt8 v)).tag = "warning") ∧
    (∀ post, runLoop (none :: post) = .ok ⟨[diag.errorReadFailed], [], true⟩ ∧
      diag.errorReadFailed.tag = "error") := by
  refine ⟨?_, ?_, ?_, ?_, ?_, ?_, ?_⟩
  · intro args hne
    exact ⟨parse_command_line_count hne, rfl⟩
  · intro prog arg hfc
    refine ⟨?_, rfl⟩
    rw [parse_command_line_len2 (by rfl)]
    have hgd : ([prog, arg] : List (List Char)).getD 1 [] = arg := rfl
    rw [hgd, hfc]
  · intro cfg bindOk
    exact ⟨rfl, rfl⟩
  · intro cfg osFd hne
    have hopen : (⟨osFd⟩ : socket).isOpen = true := by
      simp [socket.isOpen, uninitialized, hne]
    refine ⟨?_, rfl⟩
    simp [create_socket, hopen]
  · intro bytes h
    have h' : (bytes.length : Int) ≠ ((payload_size : Nat) : Int) := by
      simp only [payload_size]
      exact_mod_cast h
    refine ⟨?_, rfl⟩
    simp only [deserialize]
    rw [if_pos h']
  · intro v hv hn
    exact ⟨parse_message_invalid_byte hv hn, rfl⟩
  · intro post
    exact ⟨rfl, rfl⟩

/-- Witness for C7: one concrete input per failed path. -/
theorem C7_witness :
    (parse_command_line [] =
        (none, [diag.errorArgCount 1
          (if ([] : List (List Char)).length = 0 then SIZE_T_MOD - 1
           else ([] : List (List Char)).length - 1)]) ∧
      (diag.errorArgCount 1
        (if ([] : List (List Char)).length = 0 then SIZE_T_MOD - 1
         else ([] : List (List Char)).length - 1)).tag = "error") ∧
    (parse_command_line [['p'], ['x']] = (none, [diag.errorParsePort ['x']]) ∧
      (diag.errorParsePort ['x']).tag = "error") ∧
    (create_socket ⟨80⟩ (-1) true = (none, [diag.errorCreateSocket]) ∧
      diag.errorCreateSocket.tag = "error") ∧
    (create_socket ⟨80⟩ 5 false = (none, [diag.errorBindSocket (80 : Nat)]) ∧
      (diag.errorBindSocket (config.mk 80).port_number).tag = "error") ∧
    (deserialize [1, 2] = (none, [diag.warnPacketSize payload_size (([1, 2] : List Nat).length : Int)]) ∧
      (diag.warnPacketSize payload_size (([1, 2] : List Nat).length : Int)).tag = "warning") ∧
    (parse_message [100] = (none, [diag.warnPacketContents (toInt8 100)]) ∧
      (diag.warnPacketContents (toInt8 100)).tag = "warning") ∧
    (runLoop [none] = .ok ⟨[diag.errorReadFailed], [], true⟩ ∧
      diag.errorReadFailed.tag = "error") :=
  ⟨C7_one_diagnostic_per_failure.1 [] (by norm_num),
   C7_one_diagnostic_per_failure.2.1 ['p'] ['x'] (by decide),
   C7_one_diagnostic_per_failure.2.2.1 ⟨80⟩ true,
   C7_one_diagnostic_per_failure.2.2.2.1 ⟨80⟩ 5 (by decide),
   C7_one_diagnostic_per_failure.2.2.2.2.1 [1, 2] (by decide),
   C7_one_diagnostic_per_failure.2.2.2.2.2.1 100 (by decide) (by decide),
   C7_one_diagnostic_per_failure.2.2.2.2.2.2 []⟩

/-- C8: whenever the read fails inside the dispatch loop (a `none`
transport event), the loop's observable behaviour is independent of
every later event (no subsequent iteration, deserialization or
validation runs), the process terminates abnormally (`fatal = true`),
the only error-level diagnostic of the whole run is the single read
failure line, and it is the last diagnostic emitted. -/
theorem C8_fatal_read_terminates (pre post : List (Option (List Nat)))
    (hpre : ∀ t ∈ pre, t ≠ none) :
    runLoop (pre ++ none :: post) = runLoop (pre ++ [none]) ∧
    ∃ r : runTrace, runLoop (pre ++ none :: post) = .ok r ∧
      r.fatal = true ∧
      r.diags.filter (fun d => d.tag == "error") = [diag.errorReadFailed] ∧
      r.diags.getLast? = some diag.errorReadFailed := by
  revert hpre
  induction pre with
  | nil =>
    intro _
    exact ⟨rfl, ⟨[diag.errorReadFailed], [], true⟩, rfl, rfl, rfl, rfl⟩
  | cons t pre' ih =>
    intro hpre
    obtain ⟨heq, r, hr, hfatal, hfilter, hlast⟩ := ih (fun x hx => hpre x (by simp [hx]))
    have ht : t ≠ none := hpre t (by simp)
    cases t with
    | none => exact absurd rfl ht
    | some d =>
      obtain ⟨ds, out, hwarn, hstep⟩ := runStep_some_ok d
      have hr2 : runLoop (pre' ++ [none]) = .ok r := heq ▸ hr
      constructor
      · show runStep (some d) (runLoop (pre' ++ none :: post)) =
          runStep (some d) (runLoop (pre' ++ [none]))
        rw [heq]
      · refine ⟨⟨ds ++ r.diags, out ++ r.stdoutLines, r.fatal⟩, ?_, hfatal, ?_, ?_⟩
        · show runStep (some d) (runLoop (pre' ++ none :: post)) = _
          rw [hr, hstep]
        · show (ds ++ r.diags).filter (fun d => d.tag == "error") = [diag.errorReadFailed]
          rw [List.filter_append, hfilter]
          have hnil : ds.filter (fun d => d.tag == "error") = [] := by
            rw [List.filter_eq_nil_iff]
            intro x hx
            rw [hwarn x hx]
            decide
          rw [hnil]
          rfl
        · show (ds ++ r.diags).getLast? = some diag.errorReadFailed
          rw [List.getLast?_append, hlast]
          rfl

/-- Witness for C8 with one healthy iteration before the failure and one
never-executed event after it. -/
theorem C8_fatal_read_witness :
    runLoop [some [0], none, some [1]] = runLoop [some [0], none] :=
  (C8_fatal_read_terminates [some [0]] [some [1]] (by decide)).1

/-- C9: internal-consistency checks are enforced by the non-recoverable
trap primitive (`ACME_ASSERT`): the handler's variant precondition traps
exactly when the contract is violated, and the destructor's
no-outstanding-errno invariant traps on an open socket with errno set;
conditions controlled by untrusted external input never trap: the
dispatch loop never reaches a contract violation on any input stream,
and every packet the validator rejects is reported through the
option/none result with a warning diagnostic, never an assertion. -/
theorem C9_assert_vs_option :
    (∀ m : message,
      process_message m = .contractViolation ↔
        ¬(m.a = animal.chicken ∨ m.a = animal.cow ∨ m.a = animal.horse ∨ m.a = animal.zebra)) ∧
    (∀ (s : socket) (errno closeResult : Int),
      s.isOpen = true → errno ≠ 0 →
      socket.destruct s errno closeResult = .contractViolation) ∧
    (∀ transports, ∃ r, runLoop transports = .ok r) ∧
    (∀ bytes : List Nat,
      (∃ m, (parse_message bytes).1 = some m) ∨
      ((parse_message bytes).1 = none ∧
        ∃ d, (parse_message bytes).2 = [d] ∧ d.tag = "warning")) := by
  refine ⟨?_, ?_, runLoop_never_traps, ?_⟩
  · intro m
    constructor
    · intro h hcond
      have hok := (process_message_legal hcond).2
      rw [h] at hok
      exact absurd hok (by simp)
    · intro hn
      simp only [process_message]
      rw [if_neg hn]
  · intro s errno closeResult hopen herr
    simp only [socket.destruct, hopen]
    rw [if_neg (by simp), if_pos herr]
  · intro bytes
    cases hp : parse_message bytes with
    | mk o ds =>
      cases o with
      | some m => exact Or.inl ⟨m, rfl⟩
      | none =>
        refine Or.inr ⟨rfl, ?_⟩
        obtain ⟨d, hd, ht⟩ := parse_message_eq_none hp
        exact ⟨d, hd, ht⟩

/-- Witness for C9 at concrete inputs: an illegal message value traps the
handler's assertion; an open socket with outstanding errno traps the
destructor's invariant; a two-packet input stream never traps; the
rejected packet `[200]` is reported via none plus one warning. -/
theorem C9_assert_vs_option_witness :
    process_message ⟨9⟩ = .contractViolation ∧
    socket.destruct ⟨5⟩ 7 0 = .contractViolation ∧
    (∃ r, runLoop [some [0], some [200]] = .ok r) ∧
    ((∃ m, (parse_message [200]).1 = some m) ∨
      ((parse_message [200]).1 = none ∧
        ∃ d, (parse_message [200]).2 = [d] ∧ d.tag = "warning")) :=
  ⟨(C9_assert_vs_option.1 ⟨9⟩).mpr (by decide),
   C9_assert_vs_option.2.1 ⟨5⟩ 7 0 (by decide) (by decide),
   C9_assert_vs_option.2.2.1 [some [0], some [200]],
   C9_assert_vs_option.2.2.2 [200]⟩
example : parse_message [2] = (some ⟨2⟩, []) := by decide
example : process_message ⟨2⟩ = .ok "horse" := by decide
example : parse_message [255] = (none, [diag.warnPacketContents (-1)]) := by decide
example : decimalDigits 8080 = ['8', '0', '8', '0'] := by decide
example : from_chars_u16 ['8', '0', '8', '0'] = some 8080 := by decide
example : runLoop [some [2], none, some [0]] =
    .ok ⟨[diag.errorReadFailed], ["horse"], true⟩ := by decide
